import Mathlib

/-!
Verification of the hearsay-lambdas transcription pipeline
(`src/lambdas/02-main.js`), shallowly embedded in Lean.

JS strings are modelled as lists of characters; JS `Math.floor` division
on nonnegative numbers is `Nat` division; the handler's external
collaborators (HTTP HEAD, download, S3 upload, ffmpeg spawn, directory
listing, Whisper transcription, GPT completion) are supplied as an
explicit environment record, and the handler returns the ordered list of
database updates it performed, the ordered list of external calls it
issued, and its HTTP response.
-/

namespace Hearsay

/-- A JS string, modelled as its list of characters. -/
abbrev Text := List Char

/-! ## Constants of `02-main.js` (lines 16-18, 246-249) and of `./utils`.

`MAX_FILE_SIZE` and `SUPPORTED_FILE_TYPES` are imported from `./utils` in
`02-main.js`; their values are as defined in `src/lambda-01-start.js`
(lines 4-5) and `src/lambda-02-process.js` (lines 20-21). -/

/-- Maximum accepted remote file size in bytes (`MAX_FILE_SIZE`, 200 MB). -/
def MAX_FILE_SIZE : Nat := 200000000

/-- The media-type allow-list (`SUPPORTED_FILE_TYPES`). -/
def SUPPORTED_FILE_TYPES : List Text :=
  ["audio/mpeg".toList, "audio/mp3".toList, "audio/x-m4a".toList]

/-- Filename marker for ffmpeg segment output files (`SEGMENT_PREFIX` in the
source, `"segment-"`). -/
def SEGMENT_PREFIX_STR : Text := "segment-".toList

/-- Segment duration in seconds (`SEGMENT_LENGTH = 60 * 20`). -/
def SEGMENT_LENGTH : Nat := 60 * 20

/-- Byte size at which a file is split (`SPLIT_FILE_SIZE_THRESHOLD`, 24 MB). -/
def SPLIT_FILE_SIZE_THRESHOLD : Nat := 24000000

/-- Character budget of the aggregated prompt (`MAX_CHARS`). -/
def MAX_CHARS : Nat := 12000

/-- Floor for the first chunk's budget (`MIN_CHARS_FOR_FIRST_CHUNK`). -/
def MIN_CHARS_FOR_FIRST_CHUNK : Nat := 4000

/-- Cap on the number of chunks (`MAX_CHUNKS_TO_USE`). -/
def MAX_CHUNKS_TO_USE : Nat := 6

/-- The separator the chunks are joined with (`JOIN_STR = " ... "`). -/
def JOIN_STR : Text := " ... ".toList

/-- The three-character ellipsis appended by `sliceText` on truncation. -/
def ELLIPSIS : Text := "...".toList

/-! ## The transcript aggregator (`02-main.js` lines 251-273) -/

/-- Embeds `sliceText` (02-main.js lines 271-273): a string no longer than
`numChars` is returned verbatim, a longer one is cut to `numChars`
characters and the ellipsis is appended. -/
def sliceText (text : Text) (numChars : Nat) : Text :=
  if text.length ≤ numChars then text else text.take numChars ++ ELLIPSIS

/-- Embeds JS `Array.prototype.join(sep)`: the empty array joins to the empty
string, and otherwise the elements are interleaved with `sep`. -/
def joinWith (sep : Text) : List Text → Text
  | [] => []
  | [x] => x
  | x :: y :: ys => x ++ sep ++ joinWith sep (y :: ys)

/-- The branch condition of `formatTranscriptForPrompt` (02-main.js line 257):
`charsPerChunk < MIN_CHARS_FOR_FIRST_CHUNK` where
`charsPerChunk = Math.floor(MAX_CHARS / n)` and
`n = Math.min(textChunks.length, MAX_CHUNKS_TO_USE)`.  For the empty chunk
list JS computes `n = 0` and `MAX_CHARS / 0 = Infinity`, so the comparison
is false; the `n ≠ 0` conjunct encodes that. -/
def usesBiasedBranch (textChunks : List Text) : Bool :=
  decide (min textChunks.length MAX_CHUNKS_TO_USE ≠ 0) &&
  decide (MAX_CHARS / min textChunks.length MAX_CHUNKS_TO_USE
            < MIN_CHARS_FOR_FIRST_CHUNK)

/-- Embeds `formatTranscriptForPrompt` (02-main.js lines 251-269).  Note that
the source computes `n = Math.min(textChunks.length, MAX_CHUNKS_TO_USE)` but
uses `n` only inside the per-chunk budget: in the biased branch
`const [first, ...rest] = textChunks` makes `rest` every chunk after the
first (`rest.length = textChunks.length - 1`), and in the uniform branch the
map runs over all of `textChunks`; no chunk is ever dropped.  The `[]` match
arm is unreachable because the biased branch requires a nonzero `n`. -/
def formatTranscriptForPrompt (textChunks : List Text) : Text :=
  if usesBiasedBranch textChunks then
    match textChunks with
    | [] => []
    | first :: rest =>
      let firstResult := sliceText first MIN_CHARS_FOR_FIRST_CHUNK
      let restSize := (MAX_CHARS - firstResult.length) / rest.length
      joinWith JOIN_STR (firstResult :: rest.map (fun t => sliceText t restSize))
  else
    joinWith JOIN_STR
      (textChunks.map
        (fun t => sliceText t (MAX_CHARS / min textChunks.length MAX_CHUNKS_TO_USE)))

example :
    formatTranscriptForPrompt
      ["a".toList, "b".toList, "c".toList, "d".toList,
       "e".toList, "f".toList, "g".toList, "h".toList]
    = "a ... b ... c ... d ... e ... f ... g ... h".toList := by decide

example : formatTranscriptForPrompt [] = [] := by decide

example : formatTranscriptForPrompt ["hi".toList] = "hi".toList := by decide

/-! ## Data model of the handler's observable behaviour -/

/-- One transcription result (`transcribe` returns
`{ fileName, results: response.data }`, and `summarize` reads
`r.results.text`).  `resultsText` is `none` when the response object lacks a
usable `text` field, in which case reading it inside `summarize` raises a
TypeError that the `catch` swallows. -/
structure TChunk where
  fileName : Text
  resultsText : Option Text
deriving DecidableEq

/-- The optional `{ title, paragraph }` value produced by `summarize`; each
field is `none` when the completion response's optional chain
`response.data?.choices?.[0]?.message.content` yields `undefined`. -/
structure SummaryResult where
  title : Option Text
  paragraph : Option Text
deriving DecidableEq

/-- One `updateDatabase` call made by the handler, in order:
`running` is `{transcription: {status: "RUNNING"}}` (line 31),
`audioUrl` is `{audioUrl: s3Url}` (line 62),
`success` is the combined SUCCESS/title/summary update (lines 75-79), and
`failed` is `{transcription: {status: "FAILED", reason}}` (line 88). -/
inductive DbUpdate where
  | running
  | audioUrl (url : Text)
  | success (output : List TChunk) (title : Option Text) (summary : Option Text)
  | failed (reason : Text)
deriving DecidableEq

/-- One external call issued by the handler: the ffmpeg spawn, a Whisper
transcription request for one file, or a GPT completion request. -/
inductive Effect where
  | ffmpegInvoke
  | transcribeCall (path : Text)
  | gptCall (prompt : Text)
deriving DecidableEq

/-- The handler's HTTP response: `makeResponse(200, {status: "success", ...})`
carrying `numFiles`, or `errorResponse(message)` with status 500. -/
inductive Response where
  | success (numFiles : Nat)
  | error (message : Text)
deriving DecidableEq

/-- What one handler invocation did: the ordered database updates, the
ordered external calls, and the returned response. -/
structure HandlerResult where
  updates : List DbUpdate
  effects : List Effect
  response : Response
deriving DecidableEq

/-- The outcome of the ffmpeg child process: either the `"error"` event fired
(the process could not be spawned), or the process closed with an exit
code. -/
inductive SpawnOutcome where
  | errorEvent (message : Text)
  | closeEvent (exitCode : Int)
deriving DecidableEq

/-- The headers returned by the HEAD request.  `contentLengthValue` is the
numeric value of the `content-length` header, `none` when the header is
absent or not a number. -/
structure HeadHeaders where
  contentType : Option Text
  contentLengthValue : Option Nat
deriving DecidableEq

/-- The environment of one handler invocation: configuration read from
`process.env`, the generated file name, and the behaviour of every external
collaborator. `headResult = none` models `axios.head` throwing. -/
structure Env where
  tempDir : Text
  bucket : Text
  fileName : Text
  headResult : Option HeadHeaders
  downloadResult : Except Text Unit
  localSize : Nat
  uploadStatus : Nat
  spawn : SpawnOutcome
  listing : List Text
  transcribeFn : Text → Except Text TChunk
  gpt : Text → Except Text (Option Text)

/-- The event payload `{ audioUrl, dbId }`. -/
structure Event where
  audioUrl : Option Text
  dbId : Option Text

/-! ## Collaborator wrappers (`02-main.js` lines 105-185) -/

/-- Embeds `getFileMetadata` (lines 105-115): on a HEAD failure it returns
`{}` (both fields `undefined`); otherwise `contentType` is the header as-is
and `contentLength` is `Number(header) || undefined`, which maps both `NaN`
and `0` to `undefined`. -/
def getFileMetadata (env : Env) : Option Text × Option Nat :=
  match env.headResult with
  | none => (none, none)
  | some h =>
    (h.contentType,
     match h.contentLengthValue with
     | none => none
     | some v => if v = 0 then none else some v)

/-- Embeds `ffmpeg` (lines 175-185): the promise rejects with the `"error"`
event's error, and resolves with the exit code on `"close"` — the exit code
is not inspected, so a non-zero exit still resolves. -/
def ffmpegRun : SpawnOutcome → Except Text Int
  | .errorEvent m => .error m
  | .closeEvent c => .ok c

/-- Embeds the enumeration of segment files (lines 169-172):
`fs.readdirSync(TEMP_DIR).filter(f => f.startsWith(SEGMENT_PREFIX)).map(f => TEMP_DIR + "/" + f)`.
The listing order is kept; no sort is applied. -/
def collectSegmentFiles (tempDir : Text) (listing : List Text) : List Text :=
  (listing.filter (fun f => SEGMENT_PREFIX_STR.isPrefixOf f)).map
    (fun f => tempDir ++ "/".toList ++ f)

/-- Embeds `maybeSplitFile` (lines 151-173): a file under the split threshold
is returned as the single-element list `[filePath]` without touching ffmpeg;
otherwise ffmpeg is invoked and the segment files are collected from the
temp-directory listing. -/
def maybeSplitFile (env : Env) (filePath : Text) (fileSize : Nat) :
    Except Text (List Text) × List Effect :=
  if fileSize < SPLIT_FILE_SIZE_THRESHOLD then
    (.ok [filePath], [])
  else
    match ffmpegRun env.spawn with
    | .error m => (.error m, [.ffmpegInvoke])
    | .ok _ => (.ok (collectSegmentFiles env.tempDir env.listing), [.ffmpegInvoke])

/-- Embeds `Promise.all(files.map(transcribe))` (line 72): all requests are
issued; the batch succeeds with the results in file order if every request
succeeds, and fails with a failing request's error otherwise (`Promise.all`
rejects with the first settled rejection; this embedding determinizes that
to the first failure in file order). -/
def transcribeAll (fn : Text → Except Text TChunk) : List Text → Except Text (List TChunk)
  | [] => .ok []
  | f :: fs =>
    match fn f with
    | .error m => .error m
    | .ok c =>
      match transcribeAll fn fs with
      | .error m => .error m
      | .ok cs => .ok (c :: cs)

/-! ## Summarization (`02-main.js` lines 206-225) -/

/-- The paragraph-summary instruction (`SUMMARY_PROMPT`). -/
def SUMMARY_PROMPT : Text :=
  "Please summarize the following transcript into one paragraph. Ignore advertisements. Here is the transcript:".toList

/-- The title instruction (`TITLE_PROMPT`). -/
def TITLE_PROMPT : Text :=
  "Please summarize the following transcript into a short phrase that could be used as a title for the transcript. Ignore advertisements. Here is the transcript:".toList

/-- Builds the completion prompt (lines 216-217): the instruction, three
newlines, then the aggregated transcript. -/
def promptOf (instruction : Text) (transcript : Text) : Text :=
  instruction ++ "\n\n\n".toList ++ transcript

/-- Embeds `results.map((r) => r.results.text)` (line 211): `none` when some
chunk's result object has no usable `text` (the TypeError case), otherwise
the texts in order. -/
def extractTexts : List TChunk → Option (List Text)
  | [] => some []
  | c :: cs =>
    match c.resultsText, extractTexts cs with
    | some t, some ts => some (t :: ts)
    | _, _ => none

/-- Embeds `summarize` (lines 209-225) together with the completion calls it
issues.  Every throw inside the `try` (malformed chunk, rejected completion
request) is caught and surfaces as `none`; the empty chunk list returns
early with no calls issued; otherwise both completion requests are issued
(`Promise.all` starts both) and the result is present only when both
succeed. -/
def summarize (gpt : Text → Except Text (Option Text)) (results : List TChunk) :
    Option SummaryResult × List Effect :=
  match extractTexts results with
  | none => (none, [])
  | some textChunks =>
    if textChunks.length = 0 then (none, [])
    else
      let transcript := formatTranscriptForPrompt textChunks
      let tPrompt := promptOf TITLE_PROMPT transcript
      let sPrompt := promptOf SUMMARY_PROMPT transcript
      let fx := [Effect.gptCall tPrompt, Effect.gptCall sPrompt]
      match gpt tPrompt, gpt sPrompt with
      | .ok t, .ok p => (some ⟨t, p⟩, fx)
      | _, _ => (none, fx)

/-! ## The handler (`02-main.js` lines 23-91) -/

/-- The `"missing params"` message (line 26). -/
def missingParamsMsg : Text := "missing params".toList

/-- The `"invalid file"` message (line 43). -/
def invalidFileMsg : Text := "invalid file".toList

/-- The `"empty file"` message (line 57). -/
def emptyFileMsg : Text := "empty file".toList

/-- The `"error uploading to s3"` message (line 145). -/
def uploadErrorMsg : Text := "error uploading to s3".toList

/-- The `"no files to transcribe"` message (line 67). -/
def noFilesMsg : Text := "no files to transcribe".toList

/-- The public URL built by `uploadLocalFileToS3` (line 148). -/
def s3UrlOf (bucket fileName : Text) : Text :=
  "https://".toList ++ bucket ++ ".s3.amazonaws.com/".toList ++ fileName

/-- The handler's `try` block after admission validation passed with content
type `ct` and content length `cl` (lines 46-84); the `catch` (lines 85-90)
is merged in: every throw becomes a trailing FAILED update and a 500
response. -/
def afterValidation (env : Env) (cl : Nat) : HandlerResult :=
  match env.downloadResult with
  | .error m => ⟨[.running, .failed m], [], .error m⟩
  | .ok _ =>
    if env.localSize = 0 then
      ⟨[.running, .failed emptyFileMsg], [], .error emptyFileMsg⟩
    else if env.uploadStatus = 200 then
      let s3Url := s3UrlOf env.bucket env.fileName
      let audioPath := env.tempDir ++ "/".toList ++ env.fileName
      let split := maybeSplitFile env audioPath cl
      match split.1 with
      | .error m => ⟨[.running, .audioUrl s3Url, .failed m], split.2, .error m⟩
      | .ok files =>
        if files.length = 0 then
          ⟨[.running, .audioUrl s3Url, .failed noFilesMsg], split.2, .error noFilesMsg⟩
        else
          let tFx := files.map Effect.transcribeCall
          match transcribeAll env.transcribeFn files with
          | .error m =>
            ⟨[.running, .audioUrl s3Url, .failed m], split.2 ++ tFx, .error m⟩
          | .ok transcript =>
            let s := summarize env.gpt transcript
            ⟨[.running, .audioUrl s3Url,
              .success transcript (s.1.bind SummaryResult.title)
                (s.1.bind SummaryResult.paragraph)],
             split.2 ++ tFx ++ s.2, .success files.length⟩
    else ⟨[.running, .failed uploadErrorMsg], [], .error uploadErrorMsg⟩

/-- Embeds `handler` (lines 23-91).  Missing event parameters return the
error response before the `try` block, so without any database update; the
admission check (lines 36-44) requires both headers present, a supported
content type, and a content length not above `MAX_FILE_SIZE`. -/
def handler (env : Env) (event : Option Event) : HandlerResult :=
  match event with
  | none => ⟨[], [], .error missingParamsMsg⟩
  | some ev =>
    match ev.audioUrl, ev.dbId with
    | some _, some _ =>
      match getFileMetadata env with
      | (some ct, some cl) =>
        if ct ∈ SUPPORTED_FILE_TYPES ∧ cl ≤ MAX_FILE_SIZE then
          afterValidation env cl
        else ⟨[.running, .failed invalidFileMsg], [], .error invalidFileMsg⟩
      | _ => ⟨[.running, .failed invalidFileMsg], [], .error invalidFileMsg⟩
    | _, _ => ⟨[], [], .error missingParamsMsg⟩

/-- True for the `success` database update — the only update carrying a
transcript, title or summary. -/
def isSuccessUpdate : DbUpdate → Bool
  | .success _ _ _ => true
  | _ => false

/-- True for the FAILED database update. -/
def isFailedUpdate : DbUpdate → Bool
  | .failed _ => true
  | _ => false

/-- True for a Whisper transcription request. -/
def isTranscribeCall : Effect → Bool
  | .transcribeCall _ => true
  | _ => false

/-- Erases the best-effort title/summary fields of a `success` update,
leaving everything the summarizer cannot influence. -/
def updateSansSummary : DbUpdate → DbUpdate
  | .success out _ _ => .success out none none
  | u => u

/-! ## Concrete environments used to instantiate the theorems -/

/-- A concrete environment: a valid 30 MB `audio/mpeg` asset whose download,
upload and segmentation succeed, whose listing holds four segment files, and
whose transcription fails exactly on the third segment file. -/
def baseEnv : Env where
  tempDir := "/tmp".toList
  bucket := "b".toList
  fileName := "a.mp3".toList
  headResult := some ⟨some ("audio/mpeg".toList), some 30000000⟩
  downloadResult := .ok ()
  localSize := 1
  uploadStatus := 200
  spawn := .closeEvent 0
  listing := ["segment-000.mp3".toList, "segment-001.mp3".toList,
              "segment-002.mp3".toList, "segment-003.mp3".toList]
  transcribeFn := fun p =>
    if p = ("/tmp/segment-002.mp3".toList) then .error ("network error".toList)
    else .ok ⟨p, some ("hello".toList)⟩
  gpt := fun _ => .ok (some ("ok".toList))

/-- A concrete event with both parameters present. -/
def someEvent : Event := ⟨some ("http://host/x.mp3".toList), some ("1".toList)⟩

/-! ## Length lemmas for the aggregator -/

/-- Length of `sliceText`: verbatim text keeps its length; truncated text has
the budget plus the three ellipsis characters. -/
theorem sliceText_length (t : Text) (n : Nat) :
    (sliceText t n).length = if t.length ≤ n then t.length else n + 3 := by
  unfold sliceText
  split
  · rfl
  · rename_i h
    have hE : ELLIPSIS.length = 3 := rfl
    rw [List.length_append, List.length_take, hE]
    omega

/-- The output of `sliceText` never exceeds the budget plus three. -/
theorem sliceText_length_le (t : Text) (n : Nat) : (sliceText t n).length ≤ n + 3 := by
  rw [sliceText_length]
  split <;> omega

/-- Length of a join: the summed element lengths plus one separator per
gap. -/
theorem joinWith_length (sep : Text) (xs : List Text) :
    (joinWith sep xs).length = (xs.map List.length).sum + sep.length * (xs.length - 1) := by
  match xs with
  | [] => simp [joinWith]
  | [x] => simp [joinWith]
  | x :: y :: ys =>
    have ih := joinWith_length sep (y :: ys)
    simp only [joinWith, List.length_append, List.map_cons, List.sum_cons,
      List.length_cons, Nat.add_sub_cancel] at ih ⊢
    rw [ih]
    ring

/-- With the configured constants, the biased branch is taken exactly for
chunk lists of four or more elements. -/
theorem usesBiasedBranch_iff (textChunks : List Text) :
    usesBiasedBranch textChunks = true ↔ 4 ≤ textChunks.length := by
  unfold usesBiasedBranch
  simp only [Bool.and_eq_true, decide_eq_true_eq]
  unfold MAX_CHUNKS_TO_USE MAX_CHARS MIN_CHARS_FOR_FIRST_CHUNK
  constructor
  · rintro ⟨h0, hlt⟩
    by_contra hlen
    push_neg at hlen
    have hm : min textChunks.length 6 = textChunks.length := by omega
    rw [hm] at h0 hlt
    have h3 : textChunks.length = 1 ∨ textChunks.length = 2 ∨ textChunks.length = 3 := by
      omega
    rcases h3 with h | h | h <;> rw [h] at hlt <;> norm_num at hlt
  · intro h4
    refine ⟨by omega, ?_⟩
    have hm : min textChunks.length 6 = 4 ∨ min textChunks.length 6 = 5 ∨
        min textChunks.length 6 = 6 := by omega
    rcases hm with h | h | h <;> rw [h] <;> norm_num

/-! ## Claim C1 -/

/-- The eight single-letter chunks of the C1 failing input. -/
def eightShortChunks : List Text :=
  ["a".toList, "b".toList, "c".toList, "d".toList,
   "e".toList, "f".toList, "g".toList, "h".toList]

/-- C1: the claim says only the first `min(length, 6)` chunks contribute to
the aggregated prompt and every later chunk is dropped.  The code never
drops a chunk: on eight one-character chunks the output joins all eight, and
the characters of chunks seven and eight — which occur nowhere in the first
six chunks — appear in the result. -/
theorem c1_seventh_and_eighth_chunks_not_dropped :
    formatTranscriptForPrompt eightShortChunks
      = "a ... b ... c ... d ... e ... f ... g ... h".toList ∧
    'g' ∉ joinWith JOIN_STR (eightShortChunks.take MAX_CHUNKS_TO_USE) ∧
    'h' ∉ joinWith JOIN_STR (eightShortChunks.take MAX_CHUNKS_TO_USE) ∧
    'g' ∈ formatTranscriptForPrompt eightShortChunks ∧
    'h' ∈ formatTranscriptForPrompt eightShortChunks := by decide

/-! ## Claim C3 -/

/-- A 5000-character chunk. -/
def longChunk : Text := List.replicate 5000 'a'

/-- Eight 5000-character chunks: the spec's 8-chunk scenario with every
chunk longer than any budget. -/
def eightLongChunks : List Text :=
  [longChunk, longChunk, longChunk, longChunk,
   longChunk, longChunk, longChunk, longChunk]

/-- C3: the claim says the remaining budget is split across the `n - 1 = 5`
remaining used chunks, giving `(12000 - 4000) / 5 = 1600` characters each.
The code divides by `rest.length = 7` (all chunks after the first, the cap
`n` is never applied) and subtracts the truncated first result's length
`4003` (the ellipsis is included), so each of the seven remaining chunks
receives `(12000 - 4003) / 7 = 1142` characters. -/
theorem c3_rest_budget_split_over_seven_chunks :
    formatTranscriptForPrompt eightLongChunks
      = joinWith JOIN_STR
          [sliceText longChunk MIN_CHARS_FOR_FIRST_CHUNK,
           sliceText longChunk 1142, sliceText longChunk 1142, sliceText longChunk 1142,
           sliceText longChunk 1142, sliceText longChunk 1142, sliceText longChunk 1142,
           sliceText longChunk 1142] ∧
    (MAX_CHARS - (sliceText longChunk MIN_CHARS_FOR_FIRST_CHUNK).length) / 7 = 1142 ∧
    (sliceText longChunk MIN_CHARS_FOR_FIRST_CHUNK).length ≠ MIN_CHARS_FOR_FIRST_CHUNK := by
  have hl : longChunk.length = 5000 := List.length_replicate 5000 'a'
  have hlen : (sliceText longChunk MIN_CHARS_FOR_FIRST_CHUNK).length = 4003 := by
    rw [sliceText_length, hl]
    norm_num [MIN_CHARS_FOR_FIRST_CHUNK]
  have hb : usesBiasedBranch eightLongChunks = true := by
    rw [usesBiasedBranch_iff]
    rw [show eightLongChunks =
      [longChunk, longChunk, longChunk, longChunk,
       longChunk, longChunk, longChunk, longChunk] from rfl]
    simp
  refine ⟨?_, ?_, ?_⟩
  · unfold formatTranscriptForPrompt
    rw [if_pos hb]
    show joinWith JOIN_STR
        (sliceText longChunk MIN_CHARS_FOR_FIRST_CHUNK ::
          List.map (fun t => sliceText t
            ((MAX_CHARS - (sliceText longChunk MIN_CHARS_FOR_FIRST_CHUNK).length)
              / ([longChunk, longChunk, longChunk, longChunk,
                  longChunk, longChunk, longChunk] : List Text).length))
            [longChunk, longChunk, longChunk, longChunk, longChunk, longChunk, longChunk])
      = _
    rw [hlen]
    norm_num [MAX_CHARS]
  · rw [hlen]
    norm_num [MAX_CHARS]
  · rw [hlen]
    norm_num [MIN_CHARS_FOR_FIRST_CHUNK]

/-! ## Claim C2 -/

/-- A 4100-character chunk. -/
def fourKChunk : Text := List.replicate 4100 'a'

/-- C2 counterexample: the claim bounds the aggregated prompt length by
`charBudget + n * len(ellipsisMarker)` with `n` the number of chunks used
and the marker at most the five-character separator.  Three 4100-character
chunks use the uniform branch with a 4000-character budget each, and every
truncated chunk carries both the three-character ellipsis and a separator:
the output has `3 * 4003 + 2 * 5 = 12019 > 12000 + 3 * 5` characters. -/
theorem c2_three_long_chunks_exceed_claimed_bound :
    MAX_CHARS + 3 * JOIN_STR.length
      < (formatTranscriptForPrompt [fourKChunk, fourKChunk, fourKChunk]).length := by
  have hnb : usesBiasedBranch [fourKChunk, fourKChunk, fourKChunk] = false := rfl
  have hl : fourKChunk.length = 4100 := List.length_replicate 4100 'a'
  unfold formatTranscriptForPrompt
  rw [hnb]
  simp only [Bool.false_eq_true, if_false]
  simp only [List.length_cons, List.length_nil, List.map_cons, List.map_nil]
  rw [joinWith_length]
  simp only [List.map_cons, List.map_nil, List.sum_cons, List.sum_nil,
    List.length_cons, List.length_nil]
  rw [sliceText_length, hl]
  norm_num [MAX_CHARS, MAX_CHUNKS_TO_USE, JOIN_STR, MIN_CHARS_FOR_FIRST_CHUNK]

/-- C2 amended: all chunks are used, and each used chunk can carry both the
three-character truncation ellipsis and a five-character separator, so the
aggregated prompt length is bounded by the character budget plus
`(len(ellipsis) + len(separator))` per chunk of the whole input list —
not per used chunk with the cap of six. -/
theorem c2_amended_length_bound (textChunks : List Text) :
    (formatTranscriptForPrompt textChunks).length
      ≤ MAX_CHARS + (ELLIPSIS.length + JOIN_STR.length) * textChunks.length := by
  have hE : ELLIPSIS.length = 3 := rfl
  have hJ : JOIN_STR.length = 5 := rfl
  rw [hE, hJ]
  unfold formatTranscriptForPrompt
  split
  · rename_i hb
    have h4 : 4 ≤ textChunks.length := (usesBiasedBranch_iff textChunks).1 hb
    cases textChunks with
    | nil => simp at h4
    | cons first rest =>
      show (joinWith JOIN_STR (sliceText first MIN_CHARS_FOR_FIRST_CHUNK ::
          rest.map (fun t => sliceText t
            ((MAX_CHARS - (sliceText first MIN_CHARS_FOR_FIRST_CHUNK).length)
              / rest.length)))).length
        ≤ MAX_CHARS + (3 + 5) * (first :: rest).length
      rw [joinWith_length, hJ]
      simp only [List.map_cons, List.sum_cons, List.length_cons, List.length_map,
        Nat.add_sub_cancel, MAX_CHARS, MIN_CHARS_FOR_FIRST_CHUNK]
      have hfst : (sliceText first 4000).length ≤ 4003 := sliceText_length_le first 4000
      have hdiv : rest.length * ((12000 - (sliceText first 4000).length) / rest.length)
          ≤ 12000 - (sliceText first 4000).length := by
        rw [Nat.mul_comm]
        exact Nat.div_mul_le_self _ _
      have hsum : ((rest.map (fun t => sliceText t
            ((12000 - (sliceText first 4000).length) / rest.length))).map List.length).sum
          ≤ rest.length * ((12000 - (sliceText first 4000).length) / rest.length + 3) := by
        have := List.sum_le_card_nsmul
          ((rest.map (fun t => sliceText t
            ((12000 - (sliceText first 4000).length) / rest.length))).map List.length)
          ((12000 - (sliceText first 4000).length) / rest.length + 3) ?_
        · simpa [smul_eq_mul] using this
        · intro x hx
          simp only [List.mem_map] at hx
          obtain ⟨t, ht, rfl⟩ := hx
          obtain ⟨u, hu, rfl⟩ := ht
          exact sliceText_length_le u _
      rw [Nat.mul_add] at hsum
      omega
  · rename_i hnb
    have hle : textChunks.length ≤ 3 := by
      by_contra hgt
      push_neg at hgt
      exact hnb ((usesBiasedBranch_iff textChunks).2 (by omega))
    have hmin : min textChunks.length MAX_CHUNKS_TO_USE = textChunks.length := by
      unfold MAX_CHUNKS_TO_USE
      omega
    simp only [hmin]
    rw [joinWith_length, hJ]
    simp only [List.length_map, MAX_CHARS]
    have hdiv : textChunks.length * (12000 / textChunks.length) ≤ 12000 := by
      rw [Nat.mul_comm]
      exact Nat.div_mul_le_self _ _
    have hsum : ((textChunks.map (fun t =>
          sliceText t (12000 / textChunks.length))).map List.length).sum
        ≤ textChunks.length * (12000 / textChunks.length + 3) := by
      have := List.sum_le_card_nsmul
        ((textChunks.map (fun t =>
          sliceText t (12000 / textChunks.length))).map List.length)
        (12000 / textChunks.length + 3) ?_
      · simpa [smul_eq_mul] using this
      · intro x hx
        simp only [List.mem_map] at hx
        obtain ⟨t, ht, rfl⟩ := hx
        obtain ⟨u, hu, rfl⟩ := ht
        exact sliceText_length_le u _
    rw [Nat.mul_add] at hsum
    omega

/-! ## Claim C4 -/

/-- C4: the claim says the segmenter sorts the enumerated files by their
ordinal suffix for every directory-listing order.  The code keeps the
listing order: with the listing returning `segment-001` before
`segment-000`, `maybeSplitFile` returns the files in that inverted order. -/
theorem c4_segments_keep_listing_order :
    (maybeSplitFile
        { baseEnv with
            listing := ["segment-001.mp3".toList, "segment-000.mp3".toList] }
        ("/tmp/a.mp3".toList) 30000000).1
      = Except.ok ["/tmp/segment-001.mp3".toList, "/tmp/segment-000.mp3".toList] ∧
    ["/tmp/segment-001.mp3".toList, "/tmp/segment-000.mp3".toList]
      ≠ ["/tmp/segment-000.mp3".toList, "/tmp/segment-001.mp3".toList] :=
  ⟨rfl, by decide⟩

/-! ## Lemmas about the transcription batch and the issued effects -/

/-- If the batch result is a success, every file's transcription
succeeded. -/
theorem transcribeAll_ok_mem (fn : Text → Except Text TChunk) (l : List Text)
    {cs : List TChunk} (h : transcribeAll fn l = Except.ok cs) :
    ∀ p ∈ l, ∃ c, fn p = Except.ok c := by
  induction l generalizing cs with
  | nil =>
    intro p hp
    cases hp
  | cons x xs ih =>
    intro p hp
    rw [transcribeAll] at h
    cases hx : fn x with
    | error e =>
      rw [hx] at h
      simp at h
    | ok c =>
      rw [hx] at h
      cases hrest : transcribeAll fn xs with
      | error e =>
        rw [hrest] at h
        simp at h
      | ok cs2 =>
        rcases List.mem_cons.1 hp with heq | hp2
        · subst heq
          exact ⟨c, hx⟩
        · exact ih hrest p hp2

/-- If some file's transcription fails, the batch fails, and the batch error
is the error of some file of the batch. -/
theorem transcribeAll_error_of_mem (fn : Text → Except Text TChunk) (l : List Text)
    (p m : Text) (hp : p ∈ l) (hf : fn p = Except.error m) :
    ∃ r, transcribeAll fn l = Except.error r ∧ ∃ q, q ∈ l ∧ fn q = Except.error r := by
  induction l with
  | nil => cases hp
  | cons x xs ih =>
    cases hx : fn x with
    | error e =>
      refine ⟨e, ?_, x, List.mem_cons_self x xs, hx⟩
      rw [transcribeAll, hx]
    | ok c =>
      rcases List.mem_cons.1 hp with heq | hp2
      · subst heq
        rw [hx] at hf
        simp at hf
      · obtain ⟨r, hr, q, hq, hfq⟩ := ih hp2
        refine ⟨r, ?_, q, List.mem_cons_of_mem x hq, hfq⟩
        rw [transcribeAll, hx, hr]

/-- The segmentation step issues at most the ffmpeg call. -/
theorem maybeSplitFile_effects (env : Env) (filePath : Text) (fileSize : Nat) :
    (maybeSplitFile env filePath fileSize).2 = [] ∨
    (maybeSplitFile env filePath fileSize).2 = [Effect.ffmpegInvoke] := by
  unfold maybeSplitFile
  split
  · exact Or.inl rfl
  · cases ffmpegRun env.spawn
    · exact Or.inr rfl
    · exact Or.inr rfl

/-- Every effect issued by `summarize` is a completion call. -/
theorem summarize_effects_gpt (gpt : Text → Except Text (Option Text))
    (results : List TChunk) :
    ∀ e ∈ (summarize gpt results).2, ∃ q, e = Effect.gptCall q := by
  intro e he
  cases hex : extractTexts results with
  | none =>
    simp only [summarize, hex] at he
    cases he
  | some texts =>
    simp only [summarize, hex] at he
    split at he
    · cases he
    · split at he <;>
        simp only [List.mem_cons, List.not_mem_nil, or_false] at he <;>
        rcases he with rfl | rfl <;>
        exact ⟨_, rfl⟩

/-! ## Claim C5 -/

/-- C5 counterexample environment: ffmpeg closes with exit status 1 after one
segment file exists in the listing, and transcription succeeds. -/
def envExit1 : Env :=
  { baseEnv with
      spawn := .closeEvent 1
      listing := ["segment-000.mp3".toList]
      transcribeFn := fun p => .ok ⟨p, some ("hello".toList)⟩ }

/-- C5 counterexample: the claim says the segmenter fails whenever the
external tool exits with a non-zero status.  The ffmpeg promise resolves on
the `"close"` event without inspecting the exit code: with exit status 1 and
one output file the job proceeds to transcription and persists SUCCESS. -/
theorem c5_nonzero_exit_still_succeeds :
    ffmpegRun (SpawnOutcome.closeEvent 1) = Except.ok 1 ∧
    (handler envExit1 (some someEvent)).updates.any isSuccessUpdate = true ∧
    (handler envExit1 (some someEvent)).effects.any isTranscribeCall = true :=
  ⟨rfl, by decide, by decide⟩

/-- C5 amended: the segmenter fails when the spawn reports an `"error"` event
or when zero segment files are collected; in both cases (for an asset at or
above the split threshold) the job persists FAILED, never persists SUCCESS,
and issues no transcription request.  A non-zero exit status alone does not
fail the job. -/
theorem c5_amended_error_event_or_no_files (env : Env) (ev : Event)
    (a d : Text) (cl : Nat)
    (ha : ev.audioUrl = some a) (hd : ev.dbId = some d)
    (hcl : (getFileMetadata env).2 = some cl)
    (hsize : SPLIT_FILE_SIZE_THRESHOLD ≤ cl)
    (h : (∃ m, env.spawn = SpawnOutcome.errorEvent m) ∨
         collectSegmentFiles env.tempDir env.listing = []) :
    (handler env (some ev)).updates.any isFailedUpdate = true ∧
    (handler env (some ev)).updates.any isSuccessUpdate = false ∧
    (handler env (some ev)).effects.any isTranscribeCall = false := by
  have hms : maybeSplitFile env (env.tempDir ++ "/".toList ++ env.fileName) cl
        = (Except.ok ([] : List Text), [Effect.ffmpegInvoke]) ∨
      ∃ m, maybeSplitFile env (env.tempDir ++ "/".toList ++ env.fileName) cl
        = (Except.error m, [Effect.ffmpegInvoke]) := by
    rcases h with ⟨m, hspawn⟩ | hlist
    · refine Or.inr ⟨m, ?_⟩
      unfold maybeSplitFile
      rw [if_neg (not_lt.mpr hsize), hspawn]
      rfl
    · cases hsp : env.spawn with
      | errorEvent m =>
        refine Or.inr ⟨m, ?_⟩
        unfold maybeSplitFile
        rw [if_neg (not_lt.mpr hsize), hsp]
        rfl
      | closeEvent c =>
        refine Or.inl ?_
        unfold maybeSplitFile
        rw [if_neg (not_lt.mpr hsize), hsp]
        show (Except.ok (collectSegmentFiles env.tempDir env.listing),
              [Effect.ffmpegInvoke]) = _
        rw [hlist]
  simp only [handler, ha, hd]
  obtain ⟨cto, clo, hmeta⟩ : ∃ x y, getFileMetadata env = (x, y) := ⟨_, _, rfl⟩
  rw [hmeta] at hcl ⊢
  simp only at hcl
  subst hcl
  cases cto with
  | none => simp [isFailedUpdate, isSuccessUpdate, isTranscribeCall]
  | some ct =>
    simp only
    split
    · simp only [afterValidation]
      cases hdl : env.downloadResult with
      | error dm => simp [isFailedUpdate, isSuccessUpdate, isTranscribeCall]
      | ok u =>
        simp only
        split
        · simp [isFailedUpdate, isSuccessUpdate, isTranscribeCall]
        · split
          · rcases hms with hok | ⟨m, herr⟩
            · rw [hok]
              simp [isFailedUpdate, isSuccessUpdate, isTranscribeCall]
            · rw [herr]
              simp [isFailedUpdate, isSuccessUpdate, isTranscribeCall]
          · simp [isFailedUpdate, isSuccessUpdate, isTranscribeCall]
    · simp [isFailedUpdate, isSuccessUpdate, isTranscribeCall]

/-- Witness for C5 at a concrete environment whose ffmpeg spawn fails. -/
theorem c5_amended_error_event_or_no_files_witness :
    ((handler { baseEnv with spawn := .errorEvent ("boom".toList) }
        (some someEvent)).updates.any isFailedUpdate = true) ∧
    ((handler { baseEnv with spawn := .errorEvent ("boom".toList) }
        (some someEvent)).updates.any isSuccessUpdate = false) ∧
    ((handler { baseEnv with spawn := .errorEvent ("boom".toList) }
        (some someEvent)).effects.any isTranscribeCall = false) :=
  c5_amended_error_event_or_no_files
    { baseEnv with spawn := .errorEvent ("boom".toList) } someEvent
    ("http://host/x.mp3".toList) ("1".toList) 30000000
    rfl rfl rfl (by decide) (Or.inl ⟨"boom".toList, rfl⟩)

/-! ## Claim C6 -/

/-- C6 counterexample: transcription of the third of four segments fails with
the message `"network error"`.  The persisted terminal update is FAILED with
exactly that message as reason — the failing segment index 2 is not carried
in it (the reason contains no character of the index), against the claim's
"carrying the failing segment index". -/
theorem c6_reason_has_no_segment_index :
    (handler baseEnv (some someEvent)).updates =
      [DbUpdate.running,
       DbUpdate.audioUrl ("https://b.s3.amazonaws.com/a.mp3".toList),
       DbUpdate.failed ("network error".toList)] ∧
    baseEnv.transcribeFn ("/tmp/segment-002.mp3".toList)
      = Except.error ("network error".toList) ∧
    '2' ∉ ("network error".toList) :=
  ⟨by decide, rfl, by decide⟩

/-- C6 amended: if a transcription request was issued for a file whose
transcription fails, then no SUCCESS update is ever persisted (so in
particular no transcript is persisted), and a FAILED update is persisted
whose reason is the error message of some failing transcription of the
batch (the failing segment's index is not added to it). -/
theorem c6_amended_single_failure_fails_batch (env : Env) (ev : Option Event)
    (p m : Text)
    (hp : Effect.transcribeCall p ∈ (handler env ev).effects)
    (hf : env.transcribeFn p = Except.error m) :
    (handler env ev).updates.any isSuccessUpdate = false ∧
    ∃ r, DbUpdate.failed r ∈ (handler env ev).updates ∧
      ∃ q, Effect.transcribeCall q ∈ (handler env ev).effects ∧
        env.transcribeFn q = Except.error r := by
  cases ev with
  | none =>
    simp only [handler] at hp
    cases hp
  | some e =>
    rcases hea : e.audioUrl with _ | a
    · simp only [handler, hea] at hp
      cases hp
    · rcases hed : e.dbId with _ | d
      · simp only [handler, hea, hed] at hp
        cases hp
      · simp only [handler, hea, hed] at hp ⊢
        obtain ⟨cto, clo, hmeta⟩ : ∃ x y, getFileMetadata env = (x, y) := ⟨_, _, rfl⟩
        rw [hmeta] at hp ⊢
        cases cto with
        | none => cases hp
        | some ct =>
          cases clo with
          | none => cases hp
          | some cl =>
            simp only at hp ⊢
            split at hp
            · rename_i hvalid
              rw [if_pos hvalid]
              simp only [afterValidation] at hp ⊢
              cases hdl : env.downloadResult with
              | error dm =>
                rw [hdl] at hp
                simp at hp
              | ok u =>
                rw [hdl] at hp
                simp only at hp ⊢
                split at hp
                · cases hp
                · rename_i hsz
                  rw [if_neg hsz]
                  split at hp
                  · rename_i hup
                    rw [if_pos hup]
                    rcases hsplit : maybeSplitFile env
                        (env.tempDir ++ "/".toList ++ env.fileName) cl with ⟨res, segFx⟩
                    have hseg : segFx = [] ∨ segFx = [Effect.ffmpegInvoke] := by
                      have hms := maybeSplitFile_effects env
                        (env.tempDir ++ "/".toList ++ env.fileName) cl
                      rw [hsplit] at hms
                      exact hms
                    simp only [hsplit] at hp ⊢
                    cases res with
                    | error rm =>
                      simp only at hp
                      rcases hseg with rfl | rfl
                      · cases hp
                      · simp at hp
                    | ok files =>
                      simp only at hp ⊢
                      split at hp
                      · rcases hseg with rfl | rfl
                        · cases hp
                        · simp at hp
                      · rename_i hne
                        rw [if_neg hne]
                        have hpfiles : p ∈ files := by
                          rcases htr : transcribeAll env.transcribeFn files with tm | tcs <;>
                            rw [htr] at hp <;>
                            simp only [List.mem_append] at hp
                          · rcases hp with hp | hp
                            · rcases hseg with rfl | rfl
                              · cases hp
                              · simp at hp
                            · rcases List.mem_map.1 hp with ⟨q, hq, hqe⟩
                              cases hqe
                              exact hq
                          · rcases hp with (hp | hp) | hp
                            · rcases hseg with rfl | rfl
                              · cases hp
                              · simp at hp
                            · rcases List.mem_map.1 hp with ⟨q, hq, hqe⟩
                              cases hqe
                              exact hq
                            · exfalso
                              obtain ⟨q, hq⟩ := summarize_effects_gpt env.gpt tcs
                                (Effect.transcribeCall p) hp
                              cases hq
                        obtain ⟨r, hr, q, hq, hfq⟩ :=
                          transcribeAll_error_of_mem env.transcribeFn files p m hpfiles hf
                        rw [hr]
                        refine ⟨by simp [isSuccessUpdate], r, by simp, q, ?_, hfq⟩
                        simp only [List.mem_append]
                        exact Or.inr (List.mem_map.2 ⟨q, hq, rfl⟩)
                  · cases hp
            · cases hp

/-- Witness for C6 at the concrete four-segment environment whose third
segment's transcription fails. -/
theorem c6_amended_single_failure_fails_batch_witness :
    ((handler baseEnv (some someEvent)).updates.any isSuccessUpdate = false) ∧
    ∃ r, DbUpdate.failed r ∈ (handler baseEnv (some someEvent)).updates ∧
      ∃ q, Effect.transcribeCall q ∈ (handler baseEnv (some someEvent)).effects ∧
        baseEnv.transcribeFn q = Except.error r :=
  c6_amended_single_failure_fails_batch baseEnv (some someEvent)
    ("/tmp/segment-002.mp3".toList) ("network error".toList)
    (by decide) rfl

/-! ## Claim C7 -/

/-- C7: admission validation rejects the asset before any external call when
the reported size is zero (the `Number(header) || undefined` coercion turns a
zero content length into an absent one, failing the null check), or the size
exceeds `MAX_FILE_SIZE`, or the detected media type is not in the allow-list:
the handler persists RUNNING then FAILED with `"invalid file"`, issues no
effect (in particular no transcription), and returns the 500 error. -/
theorem c7_admission_validation_rejects (env : Env) (ev : Event) (a d : Text)
    (hdr : HeadHeaders)
    (ha : ev.audioUrl = some a) (hd : ev.dbId = some d)
    (hh : env.headResult = some hdr)
    (h : hdr.contentLengthValue = some 0 ∨
         (∃ v, hdr.contentLengthValue = some v ∧ MAX_FILE_SIZE < v) ∨
         (∀ t, hdr.contentType = some t → t ∉ SUPPORTED_FILE_TYPES)) :
    (handler env (some ev)).updates
        = [DbUpdate.running, DbUpdate.failed invalidFileMsg] ∧
    (handler env (some ev)).effects = [] ∧
    (handler env (some ev)).response = Response.error invalidFileMsg := by
  have hgm : getFileMetadata env =
      (hdr.contentType,
       match hdr.contentLengthValue with
       | none => none
       | some v => if v = 0 then none else some v) := by
    unfold getFileMetadata
    rw [hh]
  simp only [handler, ha, hd]
  rcases h with h0 | ⟨v, hv, hbig⟩ | hty
  · have hmeta : getFileMetadata env = (hdr.contentType, none) := by
      rw [hgm, h0]
      rfl
    rw [hmeta]
    rcases hct : hdr.contentType with _ | t
    · exact ⟨rfl, rfl, rfl⟩
    · exact ⟨rfl, rfl, rfl⟩
  · have hv0 : ¬ v = 0 := by
      unfold MAX_FILE_SIZE at hbig
      omega
    have hmeta : getFileMetadata env = (hdr.contentType, some v) := by
      rw [hgm, hv]
      simp [hv0]
    rw [hmeta]
    rcases hct : hdr.contentType with _ | t
    · exact ⟨rfl, rfl, rfl⟩
    · simp only []
      rw [if_neg (fun hc => not_le.mpr hbig hc.2)]
      exact ⟨rfl, rfl, rfl⟩
  · rcases hct : hdr.contentType with _ | t
    · have hmeta : getFileMetadata env =
          (none,
           match hdr.contentLengthValue with
           | none => none
           | some v => if v = 0 then none else some v) := by
        rw [hgm, hct]
      rw [hmeta]
      exact ⟨rfl, rfl, rfl⟩
    · have hnt : t ∉ SUPPORTED_FILE_TYPES := hty t hct
      rcases hcl : hdr.contentLengthValue with _ | v
      · have hmeta : getFileMetadata env = (some t, none) := by
          rw [hgm, hct, hcl]
        rw [hmeta]
        exact ⟨rfl, rfl, rfl⟩
      · by_cases hv0 : v = 0
        · have hmeta : getFileMetadata env = (some t, none) := by
            rw [hgm, hct, hcl, hv0]
            rfl
          rw [hmeta]
          exact ⟨rfl, rfl, rfl⟩
        · have hmeta : getFileMetadata env = (some t, some v) := by
            rw [hgm, hct, hcl]
            simp [hv0]
          rw [hmeta]
          simp only []
          rw [if_neg (fun hc => hnt hc.1)]
          exact ⟨rfl, rfl, rfl⟩

/-- Witness for C7 at a concrete environment whose reported content length
is zero. -/
theorem c7_admission_validation_rejects_witness :
    ((handler { baseEnv with headResult := some ⟨some ("audio/mpeg".toList), some 0⟩ }
        (some someEvent)).updates
      = [DbUpdate.running, DbUpdate.failed invalidFileMsg]) ∧
    ((handler { baseEnv with headResult := some ⟨some ("audio/mpeg".toList), some 0⟩ }
        (some someEvent)).effects = []) ∧
    ((handler { baseEnv with headResult := some ⟨some ("audio/mpeg".toList), some 0⟩ }
        (some someEvent)).response = Response.error invalidFileMsg) :=
  c7_admission_validation_rejects
    { baseEnv with headResult := some ⟨some ("audio/mpeg".toList), some 0⟩ }
    someEvent ("http://host/x.mp3".toList) ("1".toList)
    ⟨some ("audio/mpeg".toList), some 0⟩ rfl rfl rfl (Or.inl rfl)

/-! ## Claim C8 -/

/-- Replaces the completion collaborator of an environment, leaving every
other collaborator unchanged. -/
def envWithGpt (env : Env) (g : Text → Except Text (Option Text)) : Env :=
  { env with gpt := g }

/-- The completion collaborator can influence only the title/summary fields
of the success update: updates modulo those fields, and the response, are
identical for any two completion behaviours. -/
theorem handler_gpt_independent (env : Env)
    (g gAlt : Text → Except Text (Option Text)) (ev : Option Event) :
    (handler (envWithGpt env g) ev).updates.map updateSansSummary
      = (handler (envWithGpt env gAlt) ev).updates.map updateSansSummary ∧
    (handler (envWithGpt env g) ev).response
      = (handler (envWithGpt env gAlt) ev).response := by
  obtain ⟨td, bk, fn, hr, dr, ls, us, sp, li, tf, gp⟩ := env
  cases ev with
  | none => exact ⟨rfl, rfl⟩
  | some e =>
    simp only [handler, afterValidation, envWithGpt, getFileMetadata,
      maybeSplitFile, ffmpegRun]
    repeat' split
    all_goals exact ⟨rfl, rfl⟩

/-- C8: a rejected completion request (network failure or a malformed
response, both modelled as a thrown error) surfaces only as an absent
summary; a chunk with no usable text also yields the absent summary with no
completion call; the empty chunk list short-circuits to the absent summary
with no completion call; and the completion collaborator can never change
the persisted updates (beyond the optional title/summary fields) or the
response — summarization never fails the job. -/
theorem c8_summarization_best_effort
    (g gAlt : Text → Except Text (Option Text)) (env : Env) (ev : Option Event)
    (results : List TChunk) (texts : List Text) (m : Text)
    (hex : extractTexts results = some texts)
    (hfail : g (promptOf TITLE_PROMPT (formatTranscriptForPrompt texts))
               = Except.error m ∨
             g (promptOf SUMMARY_PROMPT (formatTranscriptForPrompt texts))
               = Except.error m) :
    (summarize g results).1 = none ∧
    summarize g [] = (none, []) ∧
    (∀ rs, extractTexts rs = none → summarize g rs = (none, [])) ∧
    (handler (envWithGpt env g) ev).updates.map updateSansSummary
      = (handler (envWithGpt env gAlt) ev).updates.map updateSansSummary ∧
    (handler (envWithGpt env g) ev).response
      = (handler (envWithGpt env gAlt) ev).response := by
  refine ⟨?_, rfl, ?_, (handler_gpt_independent env g gAlt ev).1,
    (handler_gpt_independent env g gAlt ev).2⟩
  · simp only [summarize, hex]
    by_cases h0 : texts.length = 0
    · rw [if_pos h0]
    · rw [if_neg h0]
      rcases hfail with hfl | hfl
      · rw [hfl]
      · rw [hfl]
        cases hg1 : g (promptOf TITLE_PROMPT (formatTranscriptForPrompt texts)) <;> rfl
  · intro rs hrs
    simp only [summarize, hrs]

/-- Witness for C8: one well-formed chunk and a completion collaborator that
rejects every request. -/
theorem c8_summarization_best_effort_witness :
    extractTexts [⟨"f".toList, some ("hello".toList)⟩] = some ["hello".toList] ∧
    (summarize (fun _ => Except.error ("down".toList))
        [⟨"f".toList, some ("hello".toList)⟩]).1 = none :=
  ⟨rfl,
   (c8_summarization_best_effort
      (fun _ => Except.error ("down".toList))
      (fun _ => Except.ok (some ("x".toList)))
      baseEnv (some someEvent)
      [⟨"f".toList, some ("hello".toList)⟩] ["hello".toList] ("down".toList)
      rfl (Or.inl rfl)).1⟩

/-! ## Claim C9 -/

/-- C9: a file whose reported size is under the split threshold is returned
as the single original file; ffmpeg is never invoked (no effect is
issued). -/
theorem c9_under_threshold_single_segment (env : Env) (filePath : Text) (fileSize : Nat)
    (h : fileSize < SPLIT_FILE_SIZE_THRESHOLD) :
    maybeSplitFile env filePath fileSize = (Except.ok [filePath], []) := by
  unfold maybeSplitFile
  rw [if_pos h]

/-- Witness for C9 at the spec's 5,000,000-byte scenario. -/
theorem c9_under_threshold_single_segment_witness :
    5000000 < SPLIT_FILE_SIZE_THRESHOLD ∧
    maybeSplitFile baseEnv ("x.mp3".toList) 5000000
      = (Except.ok ["x.mp3".toList], []) :=
  ⟨by decide, c9_under_threshold_single_segment baseEnv ("x.mp3".toList) 5000000 (by decide)⟩

/-! ## Claim C10 -/

/-- C10: with the configured constants the aggregator takes the uniform
branch exactly for chunk lists of at most three elements and the biased
branch for four or more; in the biased branch the tail of the list is
non-empty, so the division by its length is never a division by zero. -/
theorem c10_biased_branch_iff_four_or_more (textChunks : List Text) :
    (usesBiasedBranch textChunks = true ↔ 4 ≤ textChunks.length) ∧
    (usesBiasedBranch textChunks = true → textChunks.length - 1 ≠ 0) := by
  refine ⟨usesBiasedBranch_iff textChunks, fun h => ?_⟩
  have h4 := (usesBiasedBranch_iff textChunks).1 h
  omega

/-- Witness for C10 at a four-chunk list. -/
theorem c10_biased_branch_iff_four_or_more_witness :
    (usesBiasedBranch [['a'], ['b'], ['c'], ['d']] = true ↔
      4 ≤ ([['a'], ['b'], ['c'], ['d']] : List Text).length) ∧
    ([['a'], ['b'], ['c'], ['d']] : List Text).length - 1 ≠ 0 :=
  ⟨(c10_biased_branch_iff_four_or_more [['a'], ['b'], ['c'], ['d']]).1,
   (c10_biased_branch_iff_four_or_more [['a'], ['b'], ['c'], ['d']]).2 (by decide)⟩

end Hearsay
